import Mathlib

/-!
# T-Head C910 platform layer of OpenSBI (`platform/thead/c910/platform.c`)

A shallow embedding of the platform operations table: the cold/warm boot
propagation of the PMP and extended configuration CSRs, the PLIC delegation
write, the CLINT IPI set-up wrapper, the timer compare write, the shutdown
hook and the vendor SBI extension that boots a secondary core.

Machine model (RV64, little endian):
* every hart has its own CSR file; a CSR holds a 64-bit word;
* the globals of `platform.c` (the function-local statics of
  `c910_early_init`, the two base pointers and `c910_time_cmp`) are shared by
  all harts;
* device memory is byte addressed, addresses are 64-bit words, a 32-bit store
  writes four consecutive bytes, least significant first;
* every externally visible action (32-bit device store, console line,
  `ebreak`) is appended to a trace.

`long`, `unsigned long` and pointers are all 64-bit words here; the
conversions between them in the source keep the bit pattern, so one
representation (a natural number below `2 ^ 64`) serves for all three.
-/

namespace C910

/-! ## Constants -/

def C910_HART_COUNT : Nat := 4
def C910_HART_STACK_SIZE : Nat := 8192

def CSR_MCOR : Nat := 0x7c2
def CSR_MHCR : Nat := 0x7c1
def CSR_MCCR2 : Nat := 0x7c3
def CSR_MHINT : Nat := 0x7c5
def CSR_MXSTATUS : Nat := 0x7c0
def CSR_PLIC_BASE : Nat := 0xfc1
def CSR_MRMR : Nat := 0x7c6
def CSR_MRVBR : Nat := 0x7c7

def SBI_EXT_0_1_BOOT_OTHER_CORE : Int := 0x09000003

/-- Constants that `platform.c` takes from headers and from the build
configuration: the PMP CSR numbers of `sbi/riscv_encoding.h` and the
link address `FW_TEXT_START`. They are parameters of the embedding. -/
structure Encoding where
  CSR_PMPADDR0 : Nat
  CSR_PMPADDR1 : Nat
  CSR_PMPADDR2 : Nat
  CSR_PMPADDR3 : Nat
  CSR_PMPADDR4 : Nat
  CSR_PMPADDR5 : Nat
  CSR_PMPADDR6 : Nat
  CSR_PMPADDR7 : Nat
  CSR_PMPCFG0 : Nat
  FW_TEXT_START : Nat

/-- The numbers the RISC-V privileged architecture assigns to the PMP CSRs,
with the firmware linked at address `0`. -/
def riscvEncoding : Encoding where
  CSR_PMPADDR0 := 0x3b0
  CSR_PMPADDR1 := 0x3b1
  CSR_PMPADDR2 := 0x3b2
  CSR_PMPADDR3 := 0x3b3
  CSR_PMPADDR4 := 0x3b4
  CSR_PMPADDR5 := 0x3b5
  CSR_PMPADDR6 := 0x3b6
  CSR_PMPADDR7 := 0x3b7
  CSR_PMPCFG0 := 0x3a0
  FW_TEXT_START := 0

/-! ## Machine state -/

/-- Externally visible actions, in program order. -/
inductive Event where
  /-- A 32-bit store of `val` to device address `addr`. -/
  | write32 (addr val : Nat)
  /-- The line `sbi_printf("Unsupported private sbi call: %ld\n", extid)`. -/
  | unsupported_call (extid : Int)
  /-- The instruction `ebreak`: a breakpoint trap on the executing hart. -/
  | ebreak
  deriving DecidableEq

structure State where
  /-- CSR files: hart, CSR number, value. -/
  csr : Nat → Nat → Nat
  /-- Device memory, one byte per address. -/
  mem : Nat → Nat
  pmpaddr0 : Nat
  pmpaddr1 : Nat
  pmpaddr2 : Nat
  pmpaddr3 : Nat
  pmpaddr4 : Nat
  pmpaddr5 : Nat
  pmpaddr6 : Nat
  pmpaddr7 : Nat
  pmpcfg0 : Nat
  mcor : Nat
  mhcr : Nat
  mccr2 : Nat
  mhint : Nat
  mxstatus : Nat
  c910_plic_base_addr : Nat
  c910_clint_base_addr : Nat
  c910_time_cmp : Nat
  trace : List Event

/-- The state at reset: zeroed globals (C static storage), zero CSRs and
device bytes, empty trace. -/
def State.zero : State where
  csr := fun _ _ => 0
  mem := fun _ => 0
  pmpaddr0 := 0
  pmpaddr1 := 0
  pmpaddr2 := 0
  pmpaddr3 := 0
  pmpaddr4 := 0
  pmpaddr5 := 0
  pmpaddr6 := 0
  pmpaddr7 := 0
  pmpcfg0 := 0
  mcor := 0
  mhcr := 0
  mccr2 := 0
  mhint := 0
  mxstatus := 0
  c910_plic_base_addr := 0
  c910_clint_base_addr := 0
  c910_time_cmp := 0
  trace := []

/-- A hart just out of reset on a board whose PLIC sits at `0x4000000000`:
the PLIC base CSR of every hart holds that address, all else is zero. -/
def State.reset : State :=
  { State.zero with csr := fun _ n => if n = CSR_PLIC_BASE then 0x4000000000 else 0 }

/-! ## Register access primitives -/

/-- The macro `csr_read(csr)` executed on `hart`: the 64-bit content. -/
def csr_read (s : State) (hart csr : Nat) : Nat :=
  s.csr hart csr % 2 ^ 64

/-- The macro `csr_write(csr, val)` executed on `hart`: the register takes
the 64-bit word `val`; no other register of any hart changes. -/
def csr_write (s : State) (hart csr val : Nat) : State :=
  { s with csr := fun h n => if h = hart ∧ n = csr then val % 2 ^ 64 else s.csr h n }

/-- Byte `i` (0 is least significant) of a word. -/
def byte_of (val i : Nat) : Nat :=
  val / 256 ^ i % 256

/-- The bytes of device memory after a 32-bit little-endian store. -/
def store32 (mem : Nat → Nat) (addr val : Nat) : Nat → Nat :=
  fun a =>
    if a = addr % 2 ^ 64 then byte_of val 0
    else if a = (addr + 1) % 2 ^ 64 then byte_of val 1
    else if a = (addr + 2) % 2 ^ 64 then byte_of val 2
    else if a = (addr + 3) % 2 ^ 64 then byte_of val 3
    else mem a

/-- The function `writel(val, addr)` (and `writel_relaxed`, which differs
only by the fence): `val` is converted to `u32` and stored at `addr`. -/
def writel (s : State) (val addr : Nat) : State :=
  { s with
    mem := store32 s.mem addr (val % 2 ^ 32)
    trace := s.trace ++ [Event.write32 (addr % 2 ^ 64) (val % 2 ^ 32)] }

def writel_relaxed (s : State) (val addr : Nat) : State :=
  writel s val addr

/-- The 32-bit little-endian word held by four consecutive bytes. -/
def load32 (mem : Nat → Nat) (addr : Nat) : Nat :=
  mem (addr % 2 ^ 64) % 256
    + 256 * (mem ((addr + 1) % 2 ^ 64) % 256)
    + 256 ^ 2 * (mem ((addr + 2) % 2 ^ 64) % 256)
    + 256 ^ 3 * (mem ((addr + 3) % 2 ^ 64) % 256)

/-- The function `readl(addr)`: a 32-bit load from device memory. -/
def readl (s : State) (addr : Nat) : Nat :=
  load32 s.mem addr

/-! ## Platform operations -/

/-- The function `c910_early_init`, run on `hart`. -/
def c910_early_init (enc : Encoding) (hart : Nat) (cold_boot : Bool) (s : State) :
    Int × State :=
  let s :=
    if cold_boot then
      let s := { s with pmpaddr0 := csr_read s hart enc.CSR_PMPADDR0 }
      let s := { s with pmpaddr1 := csr_read s hart enc.CSR_PMPADDR1 }
      let s := { s with pmpaddr2 := csr_read s hart enc.CSR_PMPADDR2 }
      let s := { s with pmpaddr3 := csr_read s hart enc.CSR_PMPADDR3 }
      let s := { s with pmpaddr4 := csr_read s hart enc.CSR_PMPADDR4 }
      let s := { s with pmpaddr5 := csr_read s hart enc.CSR_PMPADDR5 }
      let s := { s with pmpaddr6 := csr_read s hart enc.CSR_PMPADDR6 }
      let s := { s with pmpaddr7 := csr_read s hart enc.CSR_PMPADDR7 }
      let s := { s with pmpcfg0 := csr_read s hart enc.CSR_PMPCFG0 }
      let s := { s with mcor := csr_read s hart CSR_MCOR }
      let s := { s with mhcr := csr_read s hart CSR_MHCR }
      let s := { s with mccr2 := csr_read s hart CSR_MCCR2 }
      let s := { s with mhint := csr_read s hart CSR_MHINT }
      let s := { s with mxstatus := csr_read s hart CSR_MXSTATUS }
      s
    else
      let s := csr_write s hart enc.CSR_PMPADDR0 s.pmpaddr0
      let s := csr_write s hart enc.CSR_PMPADDR1 s.pmpaddr1
      let s := csr_write s hart enc.CSR_PMPADDR2 s.pmpaddr2
      let s := csr_write s hart enc.CSR_PMPADDR3 s.pmpaddr3
      let s := csr_write s hart enc.CSR_PMPADDR4 s.pmpaddr4
      let s := csr_write s hart enc.CSR_PMPADDR5 s.pmpaddr5
      let s := csr_write s hart enc.CSR_PMPADDR6 s.pmpaddr6
      let s := csr_write s hart enc.CSR_PMPADDR7 s.pmpaddr7
      let s := csr_write s hart enc.CSR_PMPCFG0 s.pmpcfg0
      let s := csr_write s hart CSR_MCOR s.mcor
      let s := csr_write s hart CSR_MHCR s.mhcr
      let s := csr_write s hart CSR_MCCR2 s.mccr2
      let s := csr_write s hart CSR_MHINT s.mhint
      let s := csr_write s hart CSR_MXSTATUS s.mxstatus
      s
  let s := { s with c910_plic_base_addr := csr_read s hart CSR_PLIC_BASE }
  let s := { s with c910_clint_base_addr := (s.c910_plic_base_addr + 0x04000000) % 2 ^ 64 }
  (0, s)

/-- The function `c910_final_init`. -/
def c910_final_init (_cold_boot : Bool) (s : State) : Int × State :=
  (0, s)

/-- The function `c910_irqchip_init`: `writel(1, c910_plic_base_addr + 0x001ffffc)`. -/
def c910_irqchip_init (_cold_boot : Bool) (s : State) : Int × State :=
  let s := writel s 1 ((s.c910_plic_base_addr + 0x001ffffc) % 2 ^ 64)
  (0, s)

/-- The CLINT driver of `sbi_utils/sys/clint.h`, external to `platform.c`:
each entry point is an arbitrary state transformer with an `int` status. -/
structure ClintDriver where
  clint_cold_ipi_init : Nat → Nat → State → Int × State
  clint_warm_ipi_init : State → Int × State

/-- A call into the CLINT driver, with its arguments. -/
inductive ClintCall where
  | cold_ipi_init (base hart_count : Nat)
  | warm_ipi_init
  deriving DecidableEq

/-- The function `c910_ipi_init`. Besides status and state the result lists
the driver calls made, in order. -/
def c910_ipi_init (drv : ClintDriver) (cold_boot : Bool) (s : State) :
    (Int × State) × List ClintCall :=
  if cold_boot then
    let r := drv.clint_cold_ipi_init s.c910_clint_base_addr C910_HART_COUNT s
    let calls := [ClintCall.cold_ipi_init s.c910_clint_base_addr C910_HART_COUNT]
    let rc := r.1
    if rc ≠ 0 then
      ((rc, r.2), calls)
    else
      (drv.clint_warm_ipi_init r.2, calls ++ [ClintCall.warm_ipi_init])
  else
    (drv.clint_warm_ipi_init s, [ClintCall.warm_ipi_init])

/-- The function `c910_timer_init`:
`c910_time_cmp = (u64 *)(c910_clint_base_addr + 0x4000)`. -/
def c910_timer_init (_cold_boot : Bool) (s : State) : Int × State :=
  let s := { s with c910_time_cmp := (s.c910_clint_base_addr + 0x4000) % 2 ^ 64 }
  (0, s)

/-- The function `c910_timer_event_start`. The parameter `hartid` is the
result of `sbi_current_hartid()`, declared `u32` in `sbi/sbi_hart.h`;
`&c910_time_cmp[target_hart]` is `c910_time_cmp + 8 * target_hart` since the
elements are `u64`. -/
def c910_timer_event_start (hartid : Nat) (next_event : Nat) (s : State) : State :=
  let target_hart := hartid
  if C910_HART_COUNT ≤ target_hart then
    s
  else
    let slot := (s.c910_time_cmp + 8 * target_hart) % 2 ^ 64
    let s := writel_relaxed s next_event slot
    let s := writel_relaxed s (next_event / 2 ^ 32) ((slot + 0x04) % 2 ^ 64)
    s

/-- The function `c910_system_shutdown`: `ebreak`, then `return 0`. -/
def c910_system_shutdown (_type : Nat) (s : State) : Int × State :=
  let s := { s with trace := s.trace ++ [Event.ebreak] }
  (0, s)

/-- The conversion `(int)x` of an `unsigned long`: the low 32 bits, read as
two's complement. -/
def to_int (x : Nat) : Int :=
  if x % 2 ^ 32 < 2 ^ 31 then (x % 2 ^ 32 : Nat) else (x % 2 ^ 32 : Nat) - 2 ^ 32

/-- The `int` expression `1 << n` as RV64 computes it (`sllw`): the shift
amount is the low five bits of `n`, the 32-bit result is read as two's
complement. For `0 ≤ n < 31` this is the value C defines, `2 ^ n`. -/
def shl_one (n : Int) : Int :=
  if (n % 32).toNat < 31 then 2 ^ (n % 32).toNat else -(2 ^ 31)

/-- The conversion of an `int` to `unsigned long` (sign extension). -/
def to_ulong (x : Int) : Nat :=
  (x % 2 ^ 64).toNat

/-- The function `sbi_boot_other_core`, run on `hart`. -/
def sbi_boot_other_core (enc : Encoding) (hart : Nat) (hartid : Int) (s : State) : State :=
  let s := csr_write s hart CSR_MRVBR enc.FW_TEXT_START
  let s := csr_write s hart CSR_MRMR (csr_read s hart CSR_MRMR ||| to_ulong (shl_one hartid))
  s

/-- The function `c910_vendor_ext_provider`, run on `hart`; `args` is the
argument array, the three output pointers are never used. -/
def c910_vendor_ext_provider (enc : Encoding) (hart : Nat) (extid _funcid : Int)
    (args : Nat → Nat) (s : State) : Int × State :=
  if extid = SBI_EXT_0_1_BOOT_OTHER_CORE then
    let s := sbi_boot_other_core enc hart (to_int (args 0)) s
    (0, s)
  else
    let s := { s with trace := s.trace ++ [Event.unsupported_call extid] }
    let s := { s with trace := s.trace ++ [Event.ebreak] }
    (0, s)

/-- The CSRs of the boot snapshot, in the order `c910_early_init` visits
them. -/
def snapshot_csrs (enc : Encoding) : List Nat :=
  [enc.CSR_PMPADDR0, enc.CSR_PMPADDR1, enc.CSR_PMPADDR2, enc.CSR_PMPADDR3,
   enc.CSR_PMPADDR4, enc.CSR_PMPADDR5, enc.CSR_PMPADDR6, enc.CSR_PMPADDR7,
   enc.CSR_PMPCFG0, CSR_MCOR, CSR_MHCR, CSR_MCCR2, CSR_MHINT, CSR_MXSTATUS]

/-- The stored snapshot: the statics of `c910_early_init`, in the same
order as `snapshot_csrs`. -/
def snapshot_vals (s : State) : List Nat :=
  [s.pmpaddr0, s.pmpaddr1, s.pmpaddr2, s.pmpaddr3, s.pmpaddr4, s.pmpaddr5,
   s.pmpaddr6, s.pmpaddr7, s.pmpcfg0, s.mcor, s.mhcr, s.mccr2, s.mhint,
   s.mxstatus]

/-! ## Theorems -/

/-- Writing `g m` to CSR `m` keeps, and extends to `m`, the agreement of a
hart's CSR file with a 64-bit valued table `g`. -/
theorem csr_write_agree (g : Nat → Nat) (hg : ∀ k, g k < 2 ^ 64) (t : State)
    (hart : Nat) (S : List Nat) (m v : Nat) (hv : v = g m)
    (hS : ∀ k ∈ S, csr_read t hart k = g k) :
    ∀ k ∈ m :: S, csr_read (csr_write t hart m v) hart k = g k := by
  intro k hk
  by_cases hkm : k = m
  · subst hkm
    have hlt := hg k
    simp only [csr_read, csr_write, hv, and_self, if_true]
    omega
  · have hkS : k ∈ S := by
      rcases List.mem_cons.mp hk with h | h
      · exact absurd h hkm
      · exact h
    have := hS k hkS
    simpa [csr_read, csr_write, hkm] using this

/-- A 32-bit store changes no byte outside its four. -/
theorem store32_frame (m : Nat → Nat) (a v x : Nat)
    (hx : ∀ i < 4, x ≠ (a + i) % 2 ^ 64) : store32 m a v x = m x := by
  have h0 := hx 0 (by norm_num)
  have h1 := hx 1 (by norm_num)
  have h2 := hx 2 (by norm_num)
  have h3 := hx 3 (by norm_num)
  simp only [Nat.add_zero] at h0
  simp only [store32, if_neg h0, if_neg h1, if_neg h2, if_neg h3]

/-- The bytes a 32-bit store writes. -/
theorem store32_bytes (m : Nat → Nat) (a v : Nat) :
    store32 m a v (a % 2 ^ 64) = byte_of v 0
    ∧ store32 m a v ((a + 1) % 2 ^ 64) = byte_of v 1
    ∧ store32 m a v ((a + 2) % 2 ^ 64) = byte_of v 2
    ∧ store32 m a v ((a + 3) % 2 ^ 64) = byte_of v 3 := by
  refine ⟨?_, ?_, ?_, ?_⟩
  · simp only [store32, if_true]
  · have h0 : (a + 1) % 2 ^ 64 ≠ a % 2 ^ 64 := by omega
    simp only [store32, if_neg h0, if_true]
  · have h0 : (a + 2) % 2 ^ 64 ≠ a % 2 ^ 64 := by omega
    have h1 : (a + 2) % 2 ^ 64 ≠ (a + 1) % 2 ^ 64 := by omega
    simp only [store32, if_neg h0, if_neg h1, if_true]
  · have h0 : (a + 3) % 2 ^ 64 ≠ a % 2 ^ 64 := by omega
    have h1 : (a + 3) % 2 ^ 64 ≠ (a + 1) % 2 ^ 64 := by omega
    have h2 : (a + 3) % 2 ^ 64 ≠ (a + 2) % 2 ^ 64 := by omega
    simp only [store32, if_neg h0, if_neg h1, if_neg h2, if_true]

/-- Loading where a 32-bit value was just stored returns it. -/
theorem load32_store32 (m : Nat → Nat) (a v : Nat) (hv : v < 2 ^ 32) :
    load32 (store32 m a v) a = v := by
  obtain ⟨h0, h1, h2, h3⟩ := store32_bytes m a v
  simp only [load32, h0, h1, h2, h3, byte_of]
  norm_num
  omega

/-- A 32-bit load depends on the address as a 64-bit word only. -/
theorem load32_congr (m : Nat → Nat) (a b : Nat) (h : a % 2 ^ 64 = b % 2 ^ 64) :
    load32 m a = load32 m b := by
  have h1 : (a + 1) % 2 ^ 64 = (b + 1) % 2 ^ 64 := by omega
  have h2 : (a + 2) % 2 ^ 64 = (b + 2) % 2 ^ 64 := by omega
  have h3 : (a + 3) % 2 ^ 64 = (b + 3) % 2 ^ 64 := by omega
  simp only [load32, h, h1, h2, h3]

/-- A 32-bit store leaves a disjoint 32-bit word as it was. -/
theorem load32_store32_disjoint (m : Nat → Nat) (a b v : Nat)
    (hd : ∀ i < 4, ∀ j < 4, (b + i) % 2 ^ 64 ≠ (a + j) % 2 ^ 64) :
    load32 (store32 m a v) b = load32 m b := by
  have f : ∀ i < 4, store32 m a v ((b + i) % 2 ^ 64) = m ((b + i) % 2 ^ 64) :=
    fun i hi => store32_frame m a v _ (fun j hj => hd i hi j hj)
  have f0 := f 0 (by norm_num)
  simp only [Nat.add_zero] at f0
  simp only [load32, f0, f 1 (by norm_num), f 2 (by norm_num), f 3 (by norm_num)]

/-- The effect of `c910_timer_event_start` for an in-range hart, relative to
the table base `c910_time_cmp`. -/
theorem timer_event_start_in_range (s : State) (h d : Nat) (hh : h < 4) (hd : d < 2 ^ 64) :
    (c910_timer_event_start h d s).trace
        = s.trace ++ [Event.write32 ((s.c910_time_cmp + 8 * h) % 2 ^ 64) (d % 2 ^ 32),
            Event.write32 ((s.c910_time_cmp + 8 * h + 4) % 2 ^ 64) (d / 2 ^ 32)]
    ∧ readl (c910_timer_event_start h d s) (s.c910_time_cmp + 8 * h) = d % 2 ^ 32
    ∧ readl (c910_timer_event_start h d s) (s.c910_time_cmp + 8 * h + 4) = d / 2 ^ 32
    ∧ (∀ a, (∀ i < 8, a ≠ (s.c910_time_cmp + 8 * h + i) % 2 ^ 64) →
        (c910_timer_event_start h d s).mem a = s.mem a)
    ∧ { c910_timer_event_start h d s with mem := s.mem, trace := s.trace } = s := by
  have hge : ¬ C910_HART_COUNT ≤ h := by
    simp only [C910_HART_COUNT]
    omega
  have hhi : d / 2 ^ 32 % 2 ^ 32 = d / 2 ^ 32 := by omega
  have hlo : d % 2 ^ 32 < 2 ^ 32 := by omega
  have hhi2 : d / 2 ^ 32 < 2 ^ 32 := by omega
  have ha : ((s.c910_time_cmp + 8 * h) % 2 ^ 64 + 4) % 2 ^ 64 % 2 ^ 64
      = (s.c910_time_cmp + 8 * h + 4) % 2 ^ 64 := by omega
  have ha2 : ((s.c910_time_cmp + 8 * h) % 2 ^ 64 + 4) % 2 ^ 64
      = (s.c910_time_cmp + 8 * h + 4) % 2 ^ 64 := by omega
  have hb : (s.c910_time_cmp + 8 * h) % 2 ^ 64 % 2 ^ 64
      = (s.c910_time_cmp + 8 * h) % 2 ^ 64 := by omega
  refine ⟨?_, ?_, ?_, ?_, ?_⟩
  · simp only [c910_timer_event_start, if_neg hge, writel_relaxed, writel, hhi, ha, hb,
      List.append_assoc, List.singleton_append]
  · simp only [c910_timer_event_start, if_neg hge, writel_relaxed, writel, readl, hhi, ha2]
    rw [load32_store32_disjoint]
    · have := load32_store32 s.mem ((s.c910_time_cmp + 8 * h) % 2 ^ 64) (d % 2 ^ 32) hlo
      simpa [load32] using this
    · intro i hi j hj
      omega
  · simp only [c910_timer_event_start, if_neg hge, writel_relaxed, writel, readl, hhi, ha2]
    have := load32_store32 (store32 s.mem ((s.c910_time_cmp + 8 * h) % 2 ^ 64) (d % 2 ^ 32))
      ((s.c910_time_cmp + 8 * h + 4) % 2 ^ 64) (d / 2 ^ 32) hhi2
    simpa [load32] using this
  · intro a hne
    simp only [c910_timer_event_start, if_neg hge, writel_relaxed, writel, hhi, ha2]
    rw [store32_frame, store32_frame]
    · intro i hi
      have := hne i (by omega)
      omega
    · intro i hi
      have := hne (4 + i) (by omega)
      omega
  · simp only [c910_timer_event_start, if_neg hge, writel_relaxed, writel]

/-- Claim C1. Round trip of the boot snapshot. After a cold
`c910_early_init` on hart `h0` the fourteen statics hold the values of the
fourteen CSRs of hart `h0`; when the CSR files are then replaced by arbitrary
contents `c` and a warm `c910_early_init` runs on any hart `h1`, each of the
fourteen CSRs of `h1` holds the value the cold-boot hart had. -/
theorem early_init_round_trip (enc : Encoding) (s : State) (c : Nat → Nat → Nat)
    (h0 h1 : Nat) :
    snapshot_vals (c910_early_init enc h0 true s).2
        = (snapshot_csrs enc).map (csr_read s h0)
    ∧ ∀ n ∈ snapshot_csrs enc,
        csr_read (c910_early_init enc h1 false
            { (c910_early_init enc h0 true s).2 with csr := c }).2 h1 n
          = csr_read s h0 n := by
  refine ⟨by simp [snapshot_vals, snapshot_csrs, c910_early_init, csr_read], ?_⟩
  intro n hn
  have hg : ∀ k, csr_read s h0 k < 2 ^ 64 := fun k => Nat.mod_lt _ (by norm_num)
  have key := csr_write_agree (csr_read s h0) hg
  have base : ∀ k ∈ ([] : List Nat),
      csr_read { (c910_early_init enc h0 true s).2 with csr := c } h1 k = csr_read s h0 k := by
    intro k hk; cases hk
  have h := key _ h1 _ CSR_MXSTATUS _ rfl <| key _ h1 _ CSR_MHINT _ rfl <|
    key _ h1 _ CSR_MCCR2 _ rfl <| key _ h1 _ CSR_MHCR _ rfl <|
    key _ h1 _ CSR_MCOR _ rfl <| key _ h1 _ enc.CSR_PMPCFG0 _ rfl <|
    key _ h1 _ enc.CSR_PMPADDR7 _ rfl <| key _ h1 _ enc.CSR_PMPADDR6 _ rfl <|
    key _ h1 _ enc.CSR_PMPADDR5 _ rfl <| key _ h1 _ enc.CSR_PMPADDR4 _ rfl <|
    key _ h1 _ enc.CSR_PMPADDR3 _ rfl <| key _ h1 _ enc.CSR_PMPADDR2 _ rfl <|
    key _ h1 _ enc.CSR_PMPADDR1 _ rfl <| key _ h1 _ enc.CSR_PMPADDR0 _ rfl base
  have hmem : n ∈ [CSR_MXSTATUS, CSR_MHINT, CSR_MCCR2, CSR_MHCR, CSR_MCOR, enc.CSR_PMPCFG0,
      enc.CSR_PMPADDR7, enc.CSR_PMPADDR6, enc.CSR_PMPADDR5, enc.CSR_PMPADDR4,
      enc.CSR_PMPADDR3, enc.CSR_PMPADDR2, enc.CSR_PMPADDR1, enc.CSR_PMPADDR0] := by
    simp only [snapshot_csrs, List.mem_cons, List.mem_singleton, List.not_mem_nil, or_false] at hn
    simp only [List.mem_cons, List.mem_singleton, List.not_mem_nil, or_false]
    tauto
  exact h n hmem

/-- Claim C10. Frame of `c910_early_init`. Warm boot: the fourteen statics
are unchanged, only the fourteen snapshot CSRs of the calling hart can
change, and apart from the base-address pair nothing else changes. Cold
boot: no CSR of any hart changes, and apart from the statics and the
base-address pair nothing else changes. In both branches the status is 0,
`c910_plic_base_addr` is the value `B` of the PLIC base CSR and
`c910_clint_base_addr` is `B + 0x04000000` as a 64-bit address, the plain
sum whenever that fits in 64 bits. -/
theorem early_init_frame (enc : Encoding) (hart : Nat) (s : State) :
    ((c910_early_init enc hart false s).1 = 0
      ∧ snapshot_vals (c910_early_init enc hart false s).2 = snapshot_vals s
      ∧ (∀ h n, (h ≠ hart ∨ n ∉ snapshot_csrs enc) →
          (c910_early_init enc hart false s).2.csr h n = s.csr h n)
      ∧ { (c910_early_init enc hart false s).2 with
            csr := s.csr
            c910_plic_base_addr := s.c910_plic_base_addr
            c910_clint_base_addr := s.c910_clint_base_addr } = s
      ∧ (c910_early_init enc hart false s).2.c910_plic_base_addr
          = csr_read (c910_early_init enc hart false s).2 hart CSR_PLIC_BASE
      ∧ (CSR_PLIC_BASE ∉ snapshot_csrs enc →
          (c910_early_init enc hart false s).2.c910_plic_base_addr
            = csr_read s hart CSR_PLIC_BASE)
      ∧ (c910_early_init enc hart false s).2.c910_clint_base_addr
          = ((c910_early_init enc hart false s).2.c910_plic_base_addr + 0x04000000) % 2 ^ 64
      ∧ ((c910_early_init enc hart false s).2.c910_plic_base_addr + 0x04000000 < 2 ^ 64 →
          (c910_early_init enc hart false s).2.c910_clint_base_addr
            = (c910_early_init enc hart false s).2.c910_plic_base_addr + 0x04000000))
    ∧ ((c910_early_init enc hart true s).1 = 0
      ∧ (c910_early_init enc hart true s).2.csr = s.csr
      ∧ (c910_early_init enc hart true s).2.mem = s.mem
      ∧ (c910_early_init enc hart true s).2.c910_time_cmp = s.c910_time_cmp
      ∧ (c910_early_init enc hart true s).2.trace = s.trace
      ∧ (c910_early_init enc hart true s).2.c910_plic_base_addr
          = csr_read s hart CSR_PLIC_BASE
      ∧ (c910_early_init enc hart true s).2.c910_clint_base_addr
          = (csr_read s hart CSR_PLIC_BASE + 0x04000000) % 2 ^ 64
      ∧ (csr_read s hart CSR_PLIC_BASE + 0x04000000 < 2 ^ 64 →
          (c910_early_init enc hart true s).2.c910_clint_base_addr
            = csr_read s hart CSR_PLIC_BASE + 0x04000000)) := by
  have hframe : ∀ h n, (h ≠ hart ∨ n ∉ snapshot_csrs enc) →
      (c910_early_init enc hart false s).2.csr h n = s.csr h n := by
    intro h n hn
    have hne : ∀ m ∈ snapshot_csrs enc, ¬ (h = hart ∧ n = m) := by
      rintro m hm ⟨rfl, rfl⟩
      rcases hn with hn | hn
      · exact hn rfl
      · exact hn hm
    simp only [snapshot_csrs, List.mem_cons, List.mem_singleton, List.not_mem_nil, or_false,
      forall_eq_or_imp, forall_eq] at hne
    obtain ⟨e0, e1, e2, e3, e4, e5, e6, e7, e8, e9, e10, e11, e12, e13⟩ := hne
    simp only [c910_early_init, csr_write, Bool.false_eq_true, if_false,
      if_neg e0, if_neg e1, if_neg e2, if_neg e3, if_neg e4, if_neg e5, if_neg e6, if_neg e7,
      if_neg e8, if_neg e9, if_neg e10, if_neg e11, if_neg e12, if_neg e13]
  have hclint : ∀ cb, (c910_early_init enc hart cb s).2.c910_clint_base_addr
      = ((c910_early_init enc hart cb s).2.c910_plic_base_addr + 0x04000000) % 2 ^ 64 :=
    fun _ => rfl
  refine ⟨⟨rfl, rfl, hframe, rfl, rfl, ?_, rfl, fun hfit => ?_⟩,
    ⟨rfl, rfl, rfl, rfl, rfl, rfl, rfl, fun hfit => ?_⟩⟩
  rotate_left
  · rw [hclint false]
    exact Nat.mod_eq_of_lt hfit
  · rw [hclint true]
    exact Nat.mod_eq_of_lt hfit
  intro hplic
  have := hframe hart CSR_PLIC_BASE (Or.inr hplic)
  show (c910_early_init enc hart false s).2.csr hart CSR_PLIC_BASE % 2 ^ 64 = _
  rw [this]
  rfl

/-- Claim C7. `c910_irqchip_init` is idempotent on the register state.
With `B` the PLIC base, one call returns 0, makes exactly one 32-bit store,
of 1 to `B + 0x001ffffc`, after which that register reads 1, and changes no
byte outside that register, no CSR and no global. A second call returns 0,
repeats the same store and leaves the state of the first call unchanged
apart from the trace; the register reads 1 again. -/
theorem irqchip_init_idempotent (s : State) (cb1 cb2 : Bool) :
    (c910_irqchip_init cb1 s).1 = 0
    ∧ (c910_irqchip_init cb2 (c910_irqchip_init cb1 s).2).1 = 0
    ∧ readl (c910_irqchip_init cb1 s).2 (s.c910_plic_base_addr + 0x001ffffc) = 1
    ∧ readl (c910_irqchip_init cb2 (c910_irqchip_init cb1 s).2).2
        (s.c910_plic_base_addr + 0x001ffffc) = 1
    ∧ (∀ a, (∀ i < 4, a ≠ (s.c910_plic_base_addr + 0x001ffffc + i) % 2 ^ 64) →
        (c910_irqchip_init cb1 s).2.mem a = s.mem a)
    ∧ { (c910_irqchip_init cb1 s).2 with mem := s.mem, trace := s.trace } = s
    ∧ (c910_irqchip_init cb1 s).2.trace
        = s.trace ++ [Event.write32 ((s.c910_plic_base_addr + 0x001ffffc) % 2 ^ 64) 1]
    ∧ { (c910_irqchip_init cb2 (c910_irqchip_init cb1 s).2).2 with
          trace := (c910_irqchip_init cb1 s).2.trace } = (c910_irqchip_init cb1 s).2
    ∧ (c910_irqchip_init cb2 (c910_irqchip_init cb1 s).2).2.trace
        = (c910_irqchip_init cb1 s).2.trace
          ++ [Event.write32 ((s.c910_plic_base_addr + 0x001ffffc) % 2 ^ 64) 1] := by
  have hmem : ∀ (m : Nat → Nat) (a v : Nat), store32 (store32 m a v) a v = store32 m a v := by
    intro m a v
    funext x
    simp only [store32]
    split_ifs <;> rfl
  have hread : ∀ (m : Nat → Nat) (a : Nat),
      load32 (store32 m ((a + 0x001ffffc) % 2 ^ 64) (1 % 2 ^ 32)) (a + 0x001ffffc) = 1 := by
    intro m a
    have h := load32_store32 m ((a + 0x001ffffc) % 2 ^ 64) 1 (by norm_num)
    simpa [load32] using h
  refine ⟨rfl, rfl, ?_, ?_, ?_, rfl, ?_, ?_, ?_⟩
  · exact hread _ _
  · simp only [readl, c910_irqchip_init, writel, hmem]
    exact hread _ _
  · intro a ha
    simp only [c910_irqchip_init, writel]
    apply store32_frame
    intro i hi
    have := ha i hi
    omega
  · simp [c910_irqchip_init, writel]
  · simp only [c910_irqchip_init, writel, hmem]
  · simp [c910_irqchip_init, writel]

/-- Claim C8. `c910_system_shutdown` executes `ebreak` whatever `type` is and
changes nothing else: the resulting state is the prior state with one
`ebreak` appended to the trace, so CSRs, device bytes and globals are as
before and the outcome is the same for any two values of `type`. -/
theorem system_shutdown_halts (type type2 : Nat) (s : State) :
    (c910_system_shutdown type s).2 = { s with trace := s.trace ++ [Event.ebreak] }
    ∧ (c910_system_shutdown type s).2.csr = s.csr
    ∧ (c910_system_shutdown type s).2.mem = s.mem
    ∧ { (c910_system_shutdown type s).2 with trace := s.trace } = s
    ∧ c910_system_shutdown type s = c910_system_shutdown type2 s :=
  ⟨rfl, rfl, rfl, rfl, rfl⟩

/-- Claim C3. When the current hart id is at least the hart count 4,
`c910_timer_event_start` returns the state it was given: no store is made,
no byte, CSR or global changes and the trace is as before. -/
theorem timer_event_start_out_of_range (h d : Nat) (s : State)
    (hh : C910_HART_COUNT ≤ h) :
    c910_timer_event_start h d s = s := by
  simp only [c910_timer_event_start, if_pos hh]

/-- Hart id 4 on the zero state: the call changes nothing. -/
theorem timer_event_start_out_of_range_witness :
    C910_HART_COUNT ≤ 4
    ∧ c910_timer_event_start 4 0x1122334455667788 State.zero = State.zero :=
  ⟨by decide, timer_event_start_out_of_range 4 0x1122334455667788 State.zero (by decide)⟩

/-- Claim C5. For an extension id other than `0x09000003`
`c910_vendor_ext_provider` prints the diagnostic carrying the id, then
executes `ebreak`; nothing but the trace changes, in particular MRVBR and
MRMR of every hart hold what they held. -/
theorem vendor_ext_unknown_halts (enc : Encoding) (hart : Nat) (extid funcid : Int)
    (args : Nat → Nat) (s : State) (hext : extid ≠ 0x09000003) :
    (c910_vendor_ext_provider enc hart extid funcid args s).2.trace
        = s.trace ++ [Event.unsupported_call extid, Event.ebreak]
    ∧ { (c910_vendor_ext_provider enc hart extid funcid args s).2 with trace := s.trace } = s
    ∧ (∀ h, csr_read (c910_vendor_ext_provider enc hart extid funcid args s).2 h CSR_MRVBR
          = csr_read s h CSR_MRVBR)
    ∧ (∀ h, csr_read (c910_vendor_ext_provider enc hart extid funcid args s).2 h CSR_MRMR
          = csr_read s h CSR_MRMR) := by
  have hne : ¬ extid = SBI_EXT_0_1_BOOT_OTHER_CORE := hext
  unfold c910_vendor_ext_provider
  rw [if_neg hne]
  exact ⟨by simp, rfl, fun _ => rfl, fun _ => rfl⟩

/-- Extension id `0xdeadbeef` on the zero state: diagnostic, then `ebreak`. -/
theorem vendor_ext_unknown_halts_witness :
    (0xdeadbeef : Int) ≠ 0x09000003
    ∧ (c910_vendor_ext_provider riscvEncoding 0 0xdeadbeef 0 (fun _ => 2) State.zero).2.trace
        = [Event.unsupported_call 0xdeadbeef, Event.ebreak] :=
  ⟨by decide,
   (vendor_ext_unknown_halts riscvEncoding 0 0xdeadbeef 0 (fun _ => 2) State.zero
      (by decide)).1⟩

/-- Claim C2. After `c910_early_init` (on any hart, cold or warm) and
`c910_timer_init`, with `B` the value of the PLIC base CSR, a call of
`c910_timer_event_start` with current hart id `h < 4` and 64-bit deadline `d`
makes exactly two 32-bit stores, in this order: `d mod 2^32` to the 64-bit
address `B + 0x04000000 + 0x4000 + 8*h`, then `d / 2^32` to that address
plus 4 (address sums are 64-bit; they are the plain sums whenever those fit
in 64 bits). Afterwards the two words read back as stored, no byte outside the
eight bytes of slot `h` has changed (in particular no byte of another hart's
slot), and nothing but device memory and the trace has changed. -/
theorem timer_event_start_writes (enc : Encoding) (hi : Nat) (cb cb2 : Bool) (s : State)
    (h d : Nat) (hh : h < 4) (hd : d < 2 ^ 64) :
    let s2 := (c910_timer_init cb2 (c910_early_init enc hi cb s).2).2
    let B := csr_read s2 hi CSR_PLIC_BASE
    let slot := fun k => (B + 0x04000000 + 0x4000 + 8 * k) % 2 ^ 64
    let s3 := c910_timer_event_start h d s2
    s3.trace = s2.trace ++ [Event.write32 (slot h) (d % 2 ^ 32),
                            Event.write32 ((slot h + 4) % 2 ^ 64) (d / 2 ^ 32)]
    ∧ readl s3 (slot h) = d % 2 ^ 32
    ∧ readl s3 (slot h + 4) = d / 2 ^ 32
    ∧ (∀ a, (∀ i < 8, a ≠ (slot h + i) % 2 ^ 64) → s3.mem a = s2.mem a)
    ∧ (∀ k < 4, k ≠ h → ∀ i < 8,
        s3.mem ((slot k + i) % 2 ^ 64) = s2.mem ((slot k + i) % 2 ^ 64))
    ∧ { s3 with mem := s2.mem, trace := s2.trace } = s2
    ∧ (B + 0x04000000 + 0x4000 + 8 * h + 4 < 2 ^ 64 →
        slot h = B + 0x04000000 + 0x4000 + 8 * h
        ∧ (slot h + 4) % 2 ^ 64 = B + 0x04000000 + 0x4000 + 8 * h + 4) := by
  intro s2 B slot s3
  obtain ⟨h1, h2, h3, h4, h5⟩ := timer_event_start_in_range s2 h d hh hd
  have hB : B < 2 ^ 64 := Nat.mod_lt _ (by norm_num)
  have hT : s2.c910_time_cmp = ((B + 0x04000000) % 2 ^ 64 + 0x4000) % 2 ^ 64 := rfl
  have hslot : (s2.c910_time_cmp + 8 * h) % 2 ^ 64 = slot h := by
    simp only [slot, hT]
    omega
  have hslot4 : (s2.c910_time_cmp + 8 * h + 4) % 2 ^ 64 = (slot h + 4) % 2 ^ 64 := by
    simp only [slot, hT]
    omega
  have hframe : ∀ a, (∀ i < 8, a ≠ (slot h + i) % 2 ^ 64) → s3.mem a = s2.mem a := by
    intro a ha
    apply h4
    intro i hi
    have := ha i hi
    simp only [slot] at this
    rw [hT]
    omega
  refine ⟨?_, ?_, ?_, hframe, ?_, h5, ?_⟩
  rotate_right
  · intro hfit
    simp only [slot]
    omega
  · rw [h1, hslot, hslot4]
  · have e : readl s3 (slot h) = readl s3 (s2.c910_time_cmp + 8 * h) :=
      load32_congr _ _ _ (by omega)
    rw [e, h2]
  · have e : readl s3 (slot h + 4) = readl s3 (s2.c910_time_cmp + 8 * h + 4) :=
      load32_congr _ _ _ (by omega)
    rw [e, h3]
  · intro k hk hkh i hi
    apply hframe
    intro j hj
    simp only [slot]
    omega

/-- Hart 1, deadline `0x1122334455667788`, PLIC at `0x4000000000`:
`0x55667788` goes to slot 1, `0x11223344` to slot 1 plus 4. -/
theorem timer_event_start_writes_witness :
    (1 < 4 ∧ 0x1122334455667788 < 2 ^ 64)
    ∧ (c910_timer_event_start 1 0x1122334455667788
        (c910_timer_init true (c910_early_init riscvEncoding 0 true State.reset).2).2).trace
      = [Event.write32 (0x4000000000 + 0x04000000 + 0x4000 + 8 * 1) 0x55667788,
         Event.write32 (0x4000000000 + 0x04000000 + 0x4000 + 8 * 1 + 4) 0x11223344] :=
  ⟨⟨by decide, by norm_num⟩,
   (timer_event_start_writes riscvEncoding 0 true true State.reset 1 0x1122334455667788
      (by decide) (by norm_num)).1⟩

/-- Claim C4. With extension id `0x09000003`, `args[0] = h` for a hart id
`h < 4`, any function id and any prior MRMR value,
`c910_vendor_ext_provider` returns 0, adds nothing to the trace (no
`ebreak`), leaves MRVBR holding `FW_TEXT_START` and MRMR holding its prior
value OR `2 ^ h`: bit `h` is set, every other bit is as before. No other CSR
and nothing outside the CSR file changes. -/
theorem vendor_ext_boot_other_core (enc : Encoding) (hart : Nat) (funcid : Int)
    (args : Nat → Nat) (s : State) (h : Nat)
    (hfw : enc.FW_TEXT_START < 2 ^ 64) (hh : h < 4) (ha : args 0 = h) :
    (c910_vendor_ext_provider enc hart 0x09000003 funcid args s).1 = 0
    ∧ (c910_vendor_ext_provider enc hart 0x09000003 funcid args s).2.trace = s.trace
    ∧ csr_read (c910_vendor_ext_provider enc hart 0x09000003 funcid args s).2 hart CSR_MRVBR
        = enc.FW_TEXT_START
    ∧ csr_read (c910_vendor_ext_provider enc hart 0x09000003 funcid args s).2 hart CSR_MRMR
        = csr_read s hart CSR_MRMR ||| 2 ^ h
    ∧ (∀ i, (csr_read (c910_vendor_ext_provider enc hart 0x09000003 funcid args s).2
              hart CSR_MRMR).testBit i
          = ((csr_read s hart CSR_MRMR).testBit i || decide (i = h)))
    ∧ (∀ k n, (k ≠ hart ∨ (n ≠ CSR_MRVBR ∧ n ≠ CSR_MRMR)) →
        (c910_vendor_ext_provider enc hart 0x09000003 funcid args s).2.csr k n = s.csr k n)
    ∧ { (c910_vendor_ext_provider enc hart 0x09000003 funcid args s).2 with csr := s.csr }
        = s := by
  have hext : (0x09000003 : Int) = SBI_EXT_0_1_BOOT_OTHER_CORE := rfl
  have hbit : to_ulong (shl_one (to_int (args 0))) = 2 ^ h := by
    rw [ha]
    interval_cases h <;> decide
  have hm : csr_read s hart CSR_MRMR < 2 ^ 64 := Nat.mod_lt _ (by norm_num)
  have hpow : 2 ^ h < 2 ^ 64 := Nat.pow_lt_pow_right (by norm_num) (by omega)
  have hlor : (csr_read s hart CSR_MRMR ||| 2 ^ h) % 2 ^ 64
      = csr_read s hart CSR_MRMR ||| 2 ^ h :=
    Nat.mod_eq_of_lt (Nat.or_lt_two_pow hm hpow)
  have hne : ¬ CSR_MRMR = CSR_MRVBR := by decide
  have hne2 : ¬ CSR_MRVBR = CSR_MRMR := by decide
  have hval : csr_read (c910_vendor_ext_provider enc hart 0x09000003 funcid args s).2
      hart CSR_MRMR = csr_read s hart CSR_MRMR ||| 2 ^ h := by
    simp only [c910_vendor_ext_provider, hext, if_true, sbi_boot_other_core, hbit]
    simp only [csr_read, csr_write, hne, and_false, if_false, and_self, if_true]
    simp only [csr_read] at hlor
    rw [hlor, hlor]
  refine ⟨?_, ?_, ?_, hval, ?_, ?_, ?_⟩
  · simp only [c910_vendor_ext_provider, hext, if_true]
  · simp only [c910_vendor_ext_provider, hext, if_true, sbi_boot_other_core, csr_write]
  · simp only [c910_vendor_ext_provider, hext, if_true, sbi_boot_other_core]
    simp only [csr_read, csr_write, hne2, and_false, if_false, and_self, if_true]
    omega
  · intro i
    rw [hval, Nat.testBit_lor, Nat.testBit_two_pow]
    congr 1
    simp only [eq_comm]
  · intro k n hk
    have e1 : ¬ (k = hart ∧ n = CSR_MRMR) := by tauto
    have e2 : ¬ (k = hart ∧ n = CSR_MRVBR) := by tauto
    simp only [c910_vendor_ext_provider, hext, if_true, sbi_boot_other_core, csr_write,
      if_neg e1, if_neg e2]
  · simp only [c910_vendor_ext_provider, hext, if_true, sbi_boot_other_core, csr_write]

/-- Target hart 2 on the zero state: MRMR becomes its prior value OR 4. -/
theorem vendor_ext_boot_other_core_witness :
    (riscvEncoding.FW_TEXT_START < 2 ^ 64 ∧ 2 < 4 ∧ (fun _ : Nat => 2) 0 = 2)
    ∧ csr_read (c910_vendor_ext_provider riscvEncoding 0 0x09000003 0 (fun _ => 2)
        State.zero).2 0 CSR_MRMR = csr_read State.zero 0 CSR_MRMR ||| 2 ^ 2 :=
  ⟨⟨by decide, by decide, rfl⟩,
   (vendor_ext_boot_other_core riscvEncoding 0 0 (fun _ => 2) State.zero 2
      (by decide) (by decide) rfl).2.2.2.1⟩

/-- Claim C9. `c910_ipi_init` calls `clint_cold_ipi_init`, with the CLINT
base and hart count 4, exactly when `cold_boot` is true, and calls
`clint_warm_ipi_init` exactly when the boot is warm or the cold call returned
0. Warm boot: the only call is the warm one and its result is returned. Cold
boot with cold status `rc ≠ 0`: the only call is the cold one and `rc` is
returned with the state the cold call left. Cold boot with status 0: the
cold call is followed by the warm call on the state it left, whose result
is returned. A result of 0 therefore means that each call made returned 0. -/
theorem ipi_init_steps (drv : ClintDriver) (s : State) :
    c910_ipi_init drv false s = (drv.clint_warm_ipi_init s, [ClintCall.warm_ipi_init])
    ∧ ((drv.clint_cold_ipi_init s.c910_clint_base_addr 4 s).1 ≠ 0 →
        c910_ipi_init drv true s
          = (drv.clint_cold_ipi_init s.c910_clint_base_addr 4 s,
             [ClintCall.cold_ipi_init s.c910_clint_base_addr 4]))
    ∧ ((drv.clint_cold_ipi_init s.c910_clint_base_addr 4 s).1 = 0 →
        c910_ipi_init drv true s
          = (drv.clint_warm_ipi_init (drv.clint_cold_ipi_init s.c910_clint_base_addr 4 s).2,
             [ClintCall.cold_ipi_init s.c910_clint_base_addr 4, ClintCall.warm_ipi_init]))
    ∧ (∀ cb b n, ClintCall.cold_ipi_init b n ∈ (c910_ipi_init drv cb s).2 ↔
        (cb = true ∧ b = s.c910_clint_base_addr ∧ n = 4))
    ∧ (∀ cb, ClintCall.warm_ipi_init ∈ (c910_ipi_init drv cb s).2 ↔
        (cb = false ∨ (drv.clint_cold_ipi_init s.c910_clint_base_addr 4 s).1 = 0))
    ∧ (∀ cb, (c910_ipi_init drv cb s).1.1 = 0 →
        (cb = true → (drv.clint_cold_ipi_init s.c910_clint_base_addr 4 s).1 = 0)
        ∧ ClintCall.warm_ipi_init ∈ (c910_ipi_init drv cb s).2
        ∧ (drv.clint_warm_ipi_init
            (if cb then (drv.clint_cold_ipi_init s.c910_clint_base_addr 4 s).2 else s)).1
          = 0) := by
  have hwarm : c910_ipi_init drv false s
      = (drv.clint_warm_ipi_init s, [ClintCall.warm_ipi_init]) := by
    simp [c910_ipi_init]
  have hfail : (drv.clint_cold_ipi_init s.c910_clint_base_addr 4 s).1 ≠ 0 →
      c910_ipi_init drv true s
        = (drv.clint_cold_ipi_init s.c910_clint_base_addr 4 s,
           [ClintCall.cold_ipi_init s.c910_clint_base_addr 4]) := by
    intro hrc
    simp [c910_ipi_init, C910_HART_COUNT, hrc]
  have hok : (drv.clint_cold_ipi_init s.c910_clint_base_addr 4 s).1 = 0 →
      c910_ipi_init drv true s
        = (drv.clint_warm_ipi_init (drv.clint_cold_ipi_init s.c910_clint_base_addr 4 s).2,
           [ClintCall.cold_ipi_init s.c910_clint_base_addr 4, ClintCall.warm_ipi_init]) := by
    intro hrc
    simp [c910_ipi_init, C910_HART_COUNT, hrc]
  refine ⟨hwarm, hfail, hok, ?_, ?_, ?_⟩
  · intro cb b n
    cases cb
    · simp [hwarm]
    · by_cases hrc : (drv.clint_cold_ipi_init s.c910_clint_base_addr 4 s).1 = 0
      · simp [hok hrc]
      · simp [hfail hrc]
  · intro cb
    cases cb
    · simp [hwarm]
    · by_cases hrc : (drv.clint_cold_ipi_init s.c910_clint_base_addr 4 s).1 = 0
      · simp [hok hrc, hrc]
      · simp [hfail hrc, hrc]
  · intro cb
    cases cb
    · simp [hwarm]
    · by_cases hrc : (drv.clint_cold_ipi_init s.c910_clint_base_addr 4 s).1 = 0
      · simp [hok hrc, hrc]
      · simp [hfail hrc, hrc]

/-- Claim C6, evaluated on the code: with extension id `0x09000003` and
`args[0] = 5`, outside `[0, 4)`, `c910_vendor_ext_provider` sets bit 5 of
MRMR (0 before the call, 32 after it). -/
theorem boot_other_core_out_of_range :
    csr_read State.zero 0 CSR_MRMR = 0
    ∧ csr_read (c910_vendor_ext_provider riscvEncoding 0 0x09000003 0 (fun _ => 5)
        State.zero).2 0 CSR_MRMR = 32 := by
  decide

end C910
